import Mathlib

/-!
Shallow embedding of the `mirror` bidirectional-transform library
(`src/mirror.ts`, `src/composition.ts`, `src/types.ts`, `src/schema.ts`,
`src/sample.ts`) and proofs about its combinators, metadata model and
metadata consumers.

Modelling conventions:
* A JS function that may `throw` becomes a Lean function into
  `Except Err _`; a JS `Error` is modelled by its message string.
* JS numbers are modelled as rationals, extended with `Infinity`
  (`JsNum`), which the schema exporter compares against.
* JS runtime values (the `unknown`s flowing through untyped combinators)
  are modelled by the inductive `Val`.
* Object literals / `Object.entries` iteration order is modelled by
  association lists in insertion order.
* `Math.random`-derived helpers are abstracted by a `RandomOracle`
  record: each oracle field stands for one random helper of the source;
  the float arithmetic inside them is not modelled.
-/

set_option autoImplicit false

namespace MirrorFn

/-- A raised JS `Error`, modelled by its message. -/
abbrev Err := String

/-- `Result<T, E>` from `types.ts`: `{ ok: true, value } | { ok: false, error }`. -/
inductive Result (T : Type) (E : Type) where
  | ok (value : T)
  | err (error : E)

/-- A JS number: a finite value (modelled as a rational) or `Infinity`. -/
inductive JsNum where
  | fin (q : ℚ)
  | inf
deriving DecidableEq

/-- Models `Math.min(x, y)` on `JsNum` (used by the sampler's `length` case). -/
def JsNum.minValue : JsNum → JsNum → JsNum
  | .inf, y => y
  | x, .inf => x
  | .fin a, .fin b => .fin (min a b)

/-- A JS runtime value, as flowing through the untyped combinators. -/
inductive Val where
  | null
  | undefinedV
  | bool (b : Bool)
  | num (n : ℚ)
  | str (s : String)
  | arr (items : List Val)
  | obj (fields : List (String × Val))
  | date (ms : Int)
  | url (href : String)
  | bigintv (n : Int)

/-- JS property read `a[key]`: a field of an object (or `undefined` when the
object lacks it), `undefined` on other non-nullish values, and a thrown
`TypeError` on `null`/`undefined` receivers. -/
def Val.getProp : Val → String → Except Err Val
  | .null, k => .error ("Cannot read properties of null (reading " ++ k ++ ")")
  | .undefinedV, k => .error ("Cannot read properties of undefined (reading " ++ k ++ ")")
  | .obj fields, k =>
    .ok (match fields.lookup k with
      | some v => v
      | none => .undefinedV)
  | _, _ => .ok .undefinedV

/-- The discriminant values of `MetaType` in `types.ts`. -/
inductive MetaType where
  | string | number | integer | boolean | date | json | base64 | url
  | bigint | hex | binary | identity | pipe | object | array | prop
  | range | length | pattern | enum | nullable | optional | literal
  | regex | seq | sepBy | all | oneOf | pick | omit | entries | keys
  | values | split | between | route | queryString | custom
deriving DecidableEq, BEq

/-- The fields of `BaseMeta` other than the discriminant (`types.ts`):
optional description and optional lossy flag. -/
structure MetaBase where
  description : Option String := none
  lossy : Option Bool := none
deriving DecidableEq

/-- The `Meta` tagged union of `types.ts`: one variant per transform kind,
each extending `BaseMeta` with its own payload. `RegExp` payloads are
modelled by their source string; the `end` field of `BetweenMeta` is
renamed `endStr` (`end` is reserved in Lean). -/
inductive Meta where
  | string (base : MetaBase)
  | number (base : MetaBase) (min max : Option JsNum)
  | integer (base : MetaBase) (min max : Option JsNum)
  | boolean (base : MetaBase)
  | date (base : MetaBase)
  | json (base : MetaBase)
  | base64 (base : MetaBase)
  | url (base : MetaBase)
  | bigint (base : MetaBase)
  | hex (base : MetaBase)
  | binary (base : MetaBase)
  | identity (base : MetaBase)
  | pipe (base : MetaBase) (stages : List Meta)
  | object (base : MetaBase) (shape : List (String × Meta))
  | array (base : MetaBase) (items : Meta) (minItems maxItems : Option JsNum)
  | prop (base : MetaBase) (key : String) (inner : Option Meta)
  | range (base : MetaBase) (min max : JsNum)
  | length (base : MetaBase) (min max : JsNum)
  | pattern (base : MetaBase) (pattern : String) (generator : Option (Unit → String))
  | enum (base : MetaBase) (values : List Val)
  | nullable (base : MetaBase) (inner : Meta)
  | optional (base : MetaBase) (inner : Meta) (defaultValue : Val)
  | literal (base : MetaBase) (value : String)
  | regex (base : MetaBase) (pattern : String) (generator : Option (Unit → String))
  | seq (base : MetaBase) (items : List Meta)
  | sepBy (base : MetaBase) (item : Meta) (separator : Meta)
  | all (base : MetaBase) (mirrors : List (String × Meta))
  | oneOf (base : MetaBase) (options : List Meta)
  | pick (base : MetaBase) (keys : List String)
  | omit (base : MetaBase) (keys : List String)
  | entries (base : MetaBase)
  | keys (base : MetaBase)
  | values (base : MetaBase)
  | split (base : MetaBase) (delimiter : String)
  | between (base : MetaBase) (start : String) (endStr : String)
  | route (base : MetaBase) (template : String)
  | queryString (base : MetaBase)
  | custom (base : MetaBase) (data : Option Val)

/-- The shared `BaseMeta` fields of a metadata node. -/
def Meta.base : Meta → MetaBase
  | .string b | .number b _ _ | .integer b _ _ | .boolean b | .date b
  | .json b | .base64 b | .url b | .bigint b | .hex b | .binary b
  | .identity b | .pipe b _ | .object b _ | .array b _ _ _ | .prop b _ _
  | .range b _ _ | .length b _ _ | .pattern b _ _ | .enum b _
  | .nullable b _ | .optional b _ _ | .literal b _ | .regex b _ _
  | .seq b _ | .sepBy b _ _ | .all b _ | .oneOf b _ | .pick b _
  | .omit b _ | .entries b | .keys b | .values b | .split b _
  | .between b _ _ | .route b _ | .queryString b | .custom b _ => b

/-- The `type` discriminant of a metadata node. -/
def Meta.tag : Meta → MetaType
  | .string _ => .string
  | .number _ _ _ => .number
  | .integer _ _ _ => .integer
  | .boolean _ => .boolean
  | .date _ => .date
  | .json _ => .json
  | .base64 _ => .base64
  | .url _ => .url
  | .bigint _ => .bigint
  | .hex _ => .hex
  | .binary _ => .binary
  | .identity _ => .identity
  | .pipe _ _ => .pipe
  | .object _ _ => .object
  | .array _ _ _ _ => .array
  | .prop _ _ _ => .prop
  | .range _ _ _ => .range
  | .length _ _ _ => .length
  | .pattern _ _ _ => .pattern
  | .enum _ _ => .enum
  | .nullable _ _ => .nullable
  | .optional _ _ _ => .optional
  | .literal _ _ => .literal
  | .regex _ _ _ => .regex
  | .seq _ _ => .seq
  | .sepBy _ _ _ => .sepBy
  | .all _ _ => .all
  | .oneOf _ _ => .oneOf
  | .pick _ _ => .pick
  | .omit _ _ => .omit
  | .entries _ => .entries
  | .keys _ => .keys
  | .values _ => .values
  | .split _ _ => .split
  | .between _ _ _ => .between
  | .route _ _ => .route
  | .queryString _ => .queryString
  | .custom _ _ => .custom

/-- The optional `description` of a metadata node. -/
def Meta.description (m : Meta) : Option String := m.base.description

/-- The optional `lossy` flag of a metadata node. -/
def Meta.lossy (m : Meta) : Option Bool := m.base.lossy

/-- JS truthiness of `meta.lossy` (`boolean | undefined`): truthy exactly
for `true`. -/
def Meta.lossyTruthy (m : Meta) : Bool := m.lossy == some true

/-- The `Mirror<A, B>` class of `mirror.ts`: a forward function, a backward
function, and one metadata node. Functions that may throw land in
`Except Err`. -/
structure Mirror (A B : Type) where
  forward : A → Except Err B
  backward : B → Except Err A
  meta : Meta := .custom {} none

/-- `get isLossy()`: `this.meta.lossy === true`. -/
def Mirror.isLossy {A B : Type} (m : Mirror A B) : Bool :=
  m.meta.lossy == some true

/-- `tryForward(a)`: runs `forward` and converts a raised failure into a
`Result` error value; total by construction (it never raises). -/
def Mirror.tryForward {A B : Type} (m : Mirror A B) (a : A) : Result B Err :=
  match m.forward a with
  | .ok v => .ok v
  | .error e => .err e

/-- `tryBackward(b)`: runs `backward` and converts a raised failure into a
`Result` error value; total by construction (it never raises). -/
def Mirror.tryBackward {A B : Type} (m : Mirror A B) (b : B) : Result A Err :=
  match m.backward b with
  | .ok v => .ok v
  | .error e => .err e

/-- The `Mirror.pipe` method: forward composes left-to-right, backward
right-to-left; metadata is a two-stage pipe node with OR-ed lossiness. -/
def Mirror.pipe {A B C : Type} (self : Mirror A B) (other : Mirror B C) : Mirror A C where
  forward := fun a => (self.forward a).bind other.forward
  backward := fun c => (other.backward c).bind self.backward
  meta := .pipe { lossy := some (self.isLossy || other.isLossy) } [self.meta, other.meta]

/-- `Mirror.invert()`: swaps forward and backward, keeps the metadata. -/
def Mirror.invert {A B : Type} (self : Mirror A B) : Mirror B A where
  forward := self.backward
  backward := self.forward
  meta := self.meta

/-- `Mirror.map(f, g, meta?)`: composes `f` after forward and backward after
`g`. The `Partial<Meta>` spread `\x7b...this.meta, ...meta\x7d` of the
some-case is abstracted to the supplied descriptor; the claims only
exercise the absent case, in which the source keeps `this.meta`. -/
def Mirror.map {A B C : Type} (self : Mirror A B) (f : B → Except Err C)
    (g : C → Except Err B) (metaArg : Option Meta) : Mirror A C where
  forward := fun a => (self.forward a).bind f
  backward := fun c => (g c).bind self.backward
  meta :=
    match metaArg with
    | some given => given
    | none => self.meta

/-- The `mirror(forward, backward, meta)` constructor helper. -/
def mirror {A B : Type} (forward : A → Except Err B) (backward : B → Except Err A)
    (meta : Meta) : Mirror A B :=
  ⟨forward, backward, meta⟩

/-- `identity<T>()`: the trivial self-mirror with `identity` metadata. -/
def identity {T : Type} : Mirror T T where
  forward := fun x => .ok x
  backward := fun x => .ok x
  meta := .identity {}

/-- Variadic `pipe(...mirrors)` from `composition.ts`: empty input yields
the identity mirror, a single mirror is returned unchanged, and two or
more stages thread forward left-to-right and backward right-to-left,
with pipe metadata whose lossy flag ORs the stages' truthy flags. -/
def pipe {V : Type} : List (Mirror V V) → Mirror V V
  | [] => identity
  | [m] => m
  | mirrors =>
    { forward := fun a => mirrors.foldlM (fun result m => m.forward result) a
      backward := fun b => mirrors.reverse.foldlM (fun result m => m.backward result) b
      meta := .pipe { lossy := some (mirrors.any fun m => m.meta.lossyTruthy) }
        (mirrors.map fun m => m.meta) }

/-- `all(mirrors)` from `composition.ts`: field-wise application over the
keys of the mirror table, in insertion order, on both sides; `all`
metadata with OR-ed lossiness. -/
def all (mirrors : List (String × Mirror Val Val)) : Mirror Val Val where
  forward := fun a => do
    let fields ← mirrors.mapM (fun kv => do
      let v ← Val.getProp a kv.1
      let r ← kv.2.forward v
      pure (kv.1, r))
    pure (Val.obj fields)
  backward := fun b => do
    let fields ← mirrors.mapM (fun kv => do
      let v ← Val.getProp b kv.1
      let r ← kv.2.backward v
      pure (kv.1, r))
    pure (Val.obj fields)
  meta := .all { lossy := some (mirrors.any fun kv => kv.2.meta.lossyTruthy) }
    (mirrors.map fun kv => (kv.1, kv.2.meta))

/-- The forward loop of `oneOf`: try each mirror's `tryForward` in order,
return the first success, remember the last error, and raise it (or the
generic message) after exhausting the list. -/
def oneOfForwardGo {A B : Type} (a : A) : List (Mirror A B) → Option Err → Except Err B
  | [], lastError => .error (lastError.getD "All mirrors failed")
  | m :: rest, _ =>
    match m.tryForward a with
    | .ok value => .ok value
    | .err e => oneOfForwardGo a rest (some e)

/-- The backward loop of `oneOf`, mirroring `oneOfForwardGo` with
`tryBackward`. -/
def oneOfBackwardGo {A B : Type} (b : B) : List (Mirror A B) → Option Err → Except Err A
  | [], lastError => .error (lastError.getD "All mirrors failed")
  | m :: rest, _ =>
    match m.tryBackward b with
    | .ok value => .ok value
    | .err e => oneOfBackwardGo b rest (some e)

/-- The mirror `oneOf` builds once its argument-count check has passed. -/
def oneOfMirror {A B : Type} (mirrors : List (Mirror A B)) : Mirror A B where
  forward := fun a => oneOfForwardGo a mirrors none
  backward := fun b => oneOfBackwardGo b mirrors none
  meta := .oneOf {} (mirrors.map fun m => m.meta)

/-- `oneOf(...mirrors)` from `composition.ts`: throws at construction time
on an empty list, otherwise builds the first-match-wins alternative
mirror. -/
def oneOf {A B : Type} (mirrors : List (Mirror A B)) : Except Err (Mirror A B) :=
  if mirrors.length = 0 then
    .error "oneOf requires at least one mirror"
  else
    .ok (oneOfMirror mirrors)

/-- `fallback(primary, fallbackMirror)`: sugar for `oneOf` of the two. -/
def fallback {A B : Type} (primary fallbackMirror : Mirror A B) : Except Err (Mirror A B) :=
  oneOf [primary, fallbackMirror]

/-- `lazy(getMirror)` from `composition.ts`: defers the factory until use
and carries catch-all `custom` metadata. The memoization cell is
unobservable in this pure embedding (the factory is a pure thunk). -/
def lazy {A B : Type} (getMirror : Unit → Mirror A B) : Mirror A B where
  forward := fun a => (getMirror ()).forward a
  backward := fun b => (getMirror ()).backward b
  meta := .custom {} none

/-- `branch(predicate, thenMirror, elseMirror)`: forward picks by the
predicate; backward tries `thenMirror.tryBackward` first and otherwise
runs `elseMirror.backward` unconditionally. Metadata is a `oneOf` node
over both branches. -/
def branch {A B : Type} (predicate : A → Bool) (thenMirror elseMirror : Mirror A B) :
    Mirror A B where
  forward := fun a =>
    if predicate a then thenMirror.forward a else elseMirror.forward a
  backward := fun b =>
    match thenMirror.tryBackward b with
    | .ok value => .ok value
    | .err _ => elseMirror.backward b
  meta := .oneOf {} [thenMirror.meta, elseMirror.meta]

/-- `filter(predicate, message?)`: identity both ways except forward throws
the message (or the default text) when the predicate rejects. -/
def filter {A : Type} (predicate : A → Bool) (message : Option String) : Mirror A A where
  forward := fun a =>
    if predicate a then .ok a
    else .error (message.getD "Value did not match filter predicate")
  backward := fun a => .ok a
  meta := .custom {} none

/-- The `type` field of a `JsonSchema` (`string | string[]` in `types.ts`). -/
inductive SchemaType where
  | one (s : String)
  | many (ss : List String)

/-- The field record of the `JsonSchema` interface from `types.ts`,
parameterised by the type of nested schemas so that the recursive knot
can be tied by `JsonSchema` below. All fields optional. -/
structure JsonSchemaF (σ : Type) where
  type : Option SchemaType := none
  properties : Option (List (String × σ)) := none
  items : Option σ := none
  required : Option (List String) := none
  enum : Option (List Val) := none
  pattern : Option String := none
  minimum : Option JsNum := none
  maximum : Option JsNum := none
  minLength : Option JsNum := none
  maxLength : Option JsNum := none
  minItems : Option JsNum := none
  maxItems : Option JsNum := none
  format : Option String := none
  default : Option Val := none
  nullable : Option Bool := none
  oneOf : Option (List σ) := none
  allOf : Option (List σ) := none
  description : Option String := none
  readOnly : Option Bool := none

/-- The recursive `JsonSchema` structure. -/
inductive JsonSchema where
  | mk (fields : JsonSchemaF JsonSchema)

/-- The field record of a schema node. -/
def JsonSchema.out : JsonSchema → JsonSchemaF JsonSchema
  | .mk fields => fields

/-- JS truthiness of `meta.description` in `if (meta.description)`: the
empty string is falsy, so it does not make it into the base schema. -/
def truthyDescription : Option String → Option String
  | some s => if s = "" then none else some s
  | none => none

/-- The `base` object `metaToJsonSchema` starts from: empty except for a
truthy description. -/
def schemaBase (b : MetaBase) : JsonSchemaF JsonSchema :=
  { description := truthyDescription b.description }

/-- Spread-merge of a computed schema over the base object. Only
`description` can collide, and only when the inner schema carries its
own; every other field comes from the inner schema. -/
def mergeOverBase (b : MetaBase) (s : JsonSchema) : JsonSchemaF JsonSchema :=
  { s.out with description := s.out.description.orElse fun _ => truthyDescription b.description }

/-- The keys an object-like node reports as required: those whose field
descriptor kind is neither `optional` nor `nullable`, in field order. -/
def requiredKeys (fields : List (String × Meta)) : List String :=
  (fields.filter fun kv => kv.2.tag != MetaType.optional && kv.2.tag != MetaType.nullable).map
    fun kv => kv.1

mutual

/-- `metaToJsonSchema(meta)` from `schema.ts`: the total switch over the
metadata discriminant producing a JSON-Schema node. -/
def metaToJsonSchema : Meta → JsonSchema
  | .string b => .mk { schemaBase b with type := some (.one "string") }
  | .number b min max =>
    .mk { schemaBase b with type := some (.one "number"), minimum := min, maximum := max }
  | .integer b min max =>
    .mk { schemaBase b with type := some (.one "integer"), minimum := min, maximum := max }
  | .boolean b => .mk { schemaBase b with type := some (.one "boolean") }
  | .date b => .mk { schemaBase b with type := some (.one "string"), format := some "date-time" }
  | .json b => .mk { schemaBase b with type := some (.one "object") }
  | .base64 b => .mk { schemaBase b with type := some (.one "string"), format := some "byte" }
  | .url b => .mk { schemaBase b with type := some (.one "string"), format := some "uri" }
  | .bigint b =>
    .mk { schemaBase b with type := some (.one "string"), pattern := some "^-?\\d+$" }
  | .hex b =>
    .mk { schemaBase b with type := some (.one "string"), pattern := some "^[0-9a-fA-F]+$" }
  | .binary b =>
    .mk { schemaBase b with type := some (.one "string"), pattern := some "^[01]+$" }
  | .identity b => .mk (schemaBase b)
  | .pipe b stages =>
    match schemaOfLast stages with
    | none => .mk (schemaBase b)
    | some lastSchema => .mk (mergeOverBase b lastSchema)
  | .object b shape =>
    .mk { schemaBase b with
      type := some (.one "object")
      properties := some (schemaFields shape)
      required := if (requiredKeys shape).length > 0 then some (requiredKeys shape) else none }
  | .array b items minItems maxItems =>
    .mk { schemaBase b with
      type := some (.one "array")
      items := some (metaToJsonSchema items)
      minItems := minItems
      maxItems := maxItems }
  | .prop b _ inner =>
    match inner with
    | some m => metaToJsonSchema m
    | none => .mk (schemaBase b)
  | .range b min max =>
    .mk { schemaBase b with type := some (.one "number"), minimum := some min, maximum := some max }
  | .length b min max =>
    .mk { schemaBase b with
      type := some (.one "string")
      minLength := some min
      maxLength :=
        match max with
        | .inf => none
        | .fin q => some (.fin q) }
  | .pattern b pat _ =>
    .mk { schemaBase b with type := some (.one "string"), pattern := some pat }
  | .enum b vals => .mk { schemaBase b with enum := some vals }
  | .nullable b inner =>
    .mk { mergeOverBase b (metaToJsonSchema inner) with nullable := some true }
  | .optional b inner defaultValue =>
    .mk { mergeOverBase b (metaToJsonSchema inner) with default := some defaultValue }
  | .literal b value =>
    .mk { schemaBase b with type := some (.one "string"), enum := some [.str value] }
  | .regex b pat _ =>
    .mk { schemaBase b with type := some (.one "string"), pattern := some pat }
  | .seq b _ => .mk { schemaBase b with type := some (.one "object") }
  | .sepBy b _ _ =>
    .mk { schemaBase b with
      type := some (.one "array")
      items := some (.mk { type := some (.one "string") }) }
  | .split b _ =>
    .mk { schemaBase b with
      type := some (.one "array")
      items := some (.mk { type := some (.one "string") }) }
  | .between b _ _ => .mk { schemaBase b with type := some (.one "string") }
  | .route b _ => .mk { schemaBase b with type := some (.one "object") }
  | .queryString b => .mk { schemaBase b with type := some (.one "object") }
  | .pick b _ => .mk { schemaBase b with type := some (.one "object") }
  | .omit b _ => .mk { schemaBase b with type := some (.one "object") }
  | .entries b =>
    .mk { schemaBase b with
      type := some (.one "array")
      items := some (.mk { type := some (.one "array"), items := some (.mk { type := some (.one "string") }) }) }
  | .keys b =>
    .mk { schemaBase b with
      type := some (.one "array")
      items := some (.mk { type := some (.one "string") }) }
  | .values b =>
    .mk { schemaBase b with
      type := some (.one "array")
      items := some (.mk { type := some (.one "string") }) }
  | .all b mirrors =>
    .mk { schemaBase b with
      type := some (.one "object")
      properties := some (schemaFields mirrors)
      required := if (requiredKeys mirrors).length > 0 then some (requiredKeys mirrors) else none }
  | .oneOf b options => .mk { schemaBase b with oneOf := some (schemasOfList options) }
  | .custom b _ => .mk (schemaBase b)

/-- The per-field loop of the `object`/`all` cases: properties in field
order. -/
def schemaFields : List (String × Meta) → List (String × JsonSchema)
  | [] => []
  | (k, m) :: rest => (k, metaToJsonSchema m) :: schemaFields rest

/-- The schema of the final stage of a pipeline
(`stages[stages.length - 1]`), or none for an empty stage list. -/
def schemaOfLast : List Meta → Option JsonSchema
  | [] => none
  | [m] => some (metaToJsonSchema m)
  | _ :: rest => schemaOfLast rest

/-- The `options.map(metaToJsonSchema)` loop of the `oneOf` case. -/
def schemasOfList : List Meta → List JsonSchema
  | [] => []
  | m :: rest => metaToJsonSchema m :: schemasOfList rest

end

/-- Oracle for the `Math.random`-derived helpers of `sample.ts`. Each field
stands for one helper (or one comparison against a literal threshold);
the float arithmetic inside them is abstracted away, and successive
draws through the same field coincide. -/
structure RandomOracle where
  randomInt : JsNum → JsNum → Int
  randomFloat : JsNum → JsNum → ℚ
  over05 : Unit → Bool
  over08 : Unit → Bool
  now : Int

/-- The alphabet `randomString` draws from. -/
def chars : String := "abcdefghijklmnopqrstuvwxyz"

/-- `randomString(length)`: `length` draws of `chars[randomInt(0, 25)]`.
The `getD` default models `randomInt` honouring its in-range contract. -/
def randomString (o : RandomOracle) (length : Nat) : String :=
  String.mk ((List.range length).map fun _ =>
    chars.toList.getD (o.randomInt (.fin 0) (.fin ((chars.length : ℚ) - 1))).toNat ' ')

mutual

/-- `sampleFromMeta(meta)` from `sample.ts`: the total switch over the
metadata discriminant producing one sample value. -/
def sampleFromMeta (o : RandomOracle) : Meta → Val
  | .string _ => .str (randomString o 8)
  | .number _ min max => .num (o.randomFloat (min.getD (.fin 0)) (max.getD (.fin 100)))
  | .integer _ min max => .num ((o.randomInt (min.getD (.fin 0)) (max.getD (.fin 100)) : Int) : ℚ)
  | .boolean _ => .bool (o.over05 ())
  | .date _ => .date (o.now - o.randomInt (.fin 0) (.fin (365 * 24 * 60 * 60 * 1000)))
  | .json _ => .obj []
  | .base64 _ => .str (randomString o 8)
  | .url _ => .url ("https://example.com/" ++ randomString o 6)
  | .bigint _ => .bigintv (o.randomInt (.fin 0) (.fin 1000000))
  | .hex _ => .num ((o.randomInt (.fin 0) (.fin 255) : Int) : ℚ)
  | .binary _ => .num ((o.randomInt (.fin 0) (.fin 255) : Int) : ℚ)
  | .identity _ => .null
  | .pipe _ stages => sampleOfLast o stages
  | .object _ shape => .obj (sampleFields o shape)
  | .array _ items minItems maxItems =>
    .arr (List.replicate (o.randomInt (minItems.getD (.fin 1)) (maxItems.getD (.fin 3))).toNat
      (sampleFromMeta o items))
  | .prop _ _ inner =>
    match inner with
    | some m => sampleFromMeta o m
    | none => .str (randomString o 8)
  | .range _ min max => .num (o.randomFloat min max)
  | .length _ min max =>
    .str (randomString o (o.randomInt min (JsNum.minValue max (.fin 100))).toNat)
  | .pattern _ _ generator =>
    match generator with
    | some gen => .str (gen ())
    | none => .str (randomString o 10)
  | .enum _ vals =>
    vals.getD (o.randomInt (.fin 0) (.fin ((vals.length : ℚ) - 1))).toNat .undefinedV
  | .nullable _ inner => if o.over08 () then .null else sampleFromMeta o inner
  | .optional _ inner defaultValue =>
    if o.over08 () then defaultValue else sampleFromMeta o inner
  | .literal _ value => .str value
  | .regex _ _ generator =>
    match generator with
    | some gen => .str (gen ())
    | none => .str (randomString o 8)
  | .seq _ _ => .obj []
  | .sepBy _ _ _ => .arr []
  | .split _ _ => .arr [.str (randomString o 4), .str (randomString o 4)]
  | .between _ _ _ => .str (randomString o 6)
  | .route _ _ => .obj [("id", .str (randomString o 6))]
  | .queryString _ => .obj [("key", .str (randomString o 4))]
  | .pick _ _ => .obj []
  | .omit _ _ => .obj []
  | .entries _ => .arr [.arr [.str (randomString o 4), .str (randomString o 4)]]
  | .keys _ => .arr [.str (randomString o 4)]
  | .values _ => .arr [.str (randomString o 4)]
  | .all _ mirrors => .obj (sampleFields o mirrors)
  | .oneOf _ options =>
    if options.isEmpty then .null
    else sampleAt o options (o.randomInt (.fin 0) (.fin ((options.length : ℚ) - 1))).toNat
  | .custom _ _ => .null

/-- The per-field loop of the `object`/`all` sample cases. -/
def sampleFields (o : RandomOracle) : List (String × Meta) → List (String × Val)
  | [] => []
  | (k, m) :: rest => (k, sampleFromMeta o m) :: sampleFields o rest

/-- The sample of the final stage of a pipeline, or null when empty. -/
def sampleOfLast (o : RandomOracle) : List Meta → Val
  | [] => .null
  | [m] => sampleFromMeta o m
  | _ :: rest => sampleOfLast o rest

/-- `options[i]` indexing for the `oneOf` sample case; out of range yields
the JS `undefined` of an out-of-bounds read (unreachable under
`randomInt`'s contract). -/
def sampleAt (o : RandomOracle) : List Meta → Nat → Val
  | [], _ => .undefinedV
  | m :: _, 0 => sampleFromMeta o m
  | _ :: rest, n + 1 => sampleAt o rest n

end

/-- `Mirror.sample()`: delegates to `sampleFromMeta` over this mirror's
metadata (the source casts the untyped result to `B`; the embedding
keeps it as a `Val`). -/
def Mirror.sample {A B : Type} (m : Mirror A B) (o : RandomOracle) : Val :=
  sampleFromMeta o m.meta

/-- `Mirror.toJsonSchema()`: delegates to `metaToJsonSchema` over this
mirror's metadata. -/
def Mirror.toJsonSchema {A B : Type} (m : Mirror A B) : JsonSchema :=
  metaToJsonSchema m.meta

/-! Concrete mirrors used to instantiate the universally quantified
theorems below. -/

/-- A mirror explicitly flagged lossy in its metadata. -/
def lossyId : Mirror Int Int :=
  ⟨fun n => .ok n, fun n => .ok n, .custom { lossy := some true } none⟩

/-- A total mirror adding one forward and subtracting one backward. -/
def incA : Mirror Int Int :=
  ⟨fun n => .ok (n + 1), fun n => .ok (n - 1), .custom {} none⟩

/-- A total mirror adding two forward and subtracting two backward. -/
def incB : Mirror Int Int :=
  ⟨fun n => .ok (n + 2), fun n => .ok (n - 2), .custom {} none⟩

/-- A mirror whose two directions always raise. -/
def failA : Mirror Int Int :=
  ⟨fun _ => .error "failA forward", fun _ => .error "failA backward", .custom {} none⟩

/-- Another always-raising mirror, with distinct messages. -/
def failB : Mirror Int Int :=
  ⟨fun _ => .error "failB forward", fun _ => .error "failB backward", .custom {} none⟩

/-- A mirror carrying a named (non-custom) metadata kind. -/
def numberish : Mirror Int Int :=
  ⟨fun n => .ok n, fun n => .ok n, .number {} none none⟩

/-- The positivity predicate of the branch scenario. -/
def pPos : Int → Bool := fun n => decide (0 < n)

/-! Helper lemmas shared by the claim theorems. -/

/-- Bind after a pure continuation is the identity on `Except`. -/
theorem except_bind_pure {E A : Type} (e : Except E A) :
    e.bind Except.ok = e := by
  cases e <;> rfl

/-- Associativity of `Except.bind`. -/
theorem except_bind_assoc {E A B C : Type} (e : Except E A)
    (f : A → Except E B) (g : B → Except E C) :
    (e.bind f).bind g = e.bind fun x => (f x).bind g := by
  cases e <;> rfl

/-- A successful `oneOf` construction returns exactly the alternative
mirror over the given list. -/
theorem oneOf_ok_eq {A B : Type} {ms : List (Mirror A B)} {t : Mirror A B}
    (h : oneOf ms = Except.ok t) : t = oneOfMirror ms := by
  unfold oneOf at h
  split at h
  · cases h
  · injection h with h2
    exact h2.symm

/-- The forward loop of `oneOf` returns the first success: failing
prefixes are skipped regardless of the accumulated error. -/
theorem oneOfForwardGo_first {A B : Type} (a : A) (post : List (Mirror A B))
    (m : Mirror A B) (v : B) (hm : m.tryForward a = Result.ok v) :
    ∀ pre : List (Mirror A B), (∀ m2 ∈ pre, ∃ e, m2.tryForward a = Result.err e) →
      ∀ err0, oneOfForwardGo a (pre ++ m :: post) err0 = Except.ok v := by
  intro pre
  induction pre with
  | nil =>
    intro _ err0
    simp [oneOfForwardGo, hm]
  | cons p ps ih =>
    intro hfail err0
    obtain ⟨e, he⟩ := hfail p (List.mem_cons_self p ps)
    simp only [List.cons_append, oneOfForwardGo, he]
    exact ih (fun m2 hm2 => hfail m2 (List.mem_cons_of_mem p hm2)) (some e)

/-- The backward loop of `oneOf` returns the first success. -/
theorem oneOfBackwardGo_first {A B : Type} (b : B) (post : List (Mirror A B))
    (m : Mirror A B) (w : A) (hm : m.tryBackward b = Result.ok w) :
    ∀ pre : List (Mirror A B), (∀ m2 ∈ pre, ∃ e, m2.tryBackward b = Result.err e) →
      ∀ err0, oneOfBackwardGo b (pre ++ m :: post) err0 = Except.ok w := by
  intro pre
  induction pre with
  | nil =>
    intro _ err0
    simp [oneOfBackwardGo, hm]
  | cons p ps ih =>
    intro hfail err0
    obtain ⟨e, he⟩ := hfail p (List.mem_cons_self p ps)
    simp only [List.cons_append, oneOfBackwardGo, he]
    exact ih (fun m2 hm2 => hfail m2 (List.mem_cons_of_mem p hm2)) (some e)

/-- When every mirror fails, the forward loop raises the last mirror's
error. -/
theorem oneOfForwardGo_exhaust {A B : Type} (a : A) (mLast : Mirror A B) (eL : Err)
    (hL : mLast.tryForward a = Result.err eL) :
    ∀ ms : List (Mirror A B), (∀ m ∈ ms, ∃ e, m.tryForward a = Result.err e) →
      ∀ err0, oneOfForwardGo a (ms ++ [mLast]) err0 = Except.error eL := by
  intro ms
  induction ms with
  | nil =>
    intro _ err0
    simp [oneOfForwardGo, hL]
  | cons p ps ih =>
    intro hfail err0
    obtain ⟨e, he⟩ := hfail p (List.mem_cons_self p ps)
    simp only [List.cons_append, oneOfForwardGo, he]
    exact ih (fun m hm => hfail m (List.mem_cons_of_mem p hm)) (some e)

/-- When every mirror fails, the backward loop raises the last mirror's
error. -/
theorem oneOfBackwardGo_exhaust {A B : Type} (b : B) (mLast : Mirror A B) (eL : Err)
    (hL : mLast.tryBackward b = Result.err eL) :
    ∀ ms : List (Mirror A B), (∀ m ∈ ms, ∃ e, m.tryBackward b = Result.err e) →
      ∀ err0, oneOfBackwardGo b (ms ++ [mLast]) err0 = Except.error eL := by
  intro ms
  induction ms with
  | nil =>
    intro _ err0
    simp [oneOfBackwardGo, hL]
  | cons p ps ih =>
    intro hfail err0
    obtain ⟨e, he⟩ := hfail p (List.mem_cons_self p ps)
    simp only [List.cons_append, oneOfBackwardGo, he]
    exact ih (fun m hm => hfail m (List.mem_cons_of_mem p hm)) (some e)

/-- If the forward loop raises, every mirror in the list failed. -/
theorem oneOfForwardGo_error_all_fail {A B : Type} (a : A) :
    ∀ (ms : List (Mirror A B)) (err0 : Option Err) (e : Err),
      oneOfForwardGo a ms err0 = Except.error e →
      ∀ m ∈ ms, ∃ e2, m.tryForward a = Result.err e2 := by
  intro ms
  induction ms with
  | nil =>
    intro err0 e h m hm
    cases hm
  | cons p ps ih =>
    intro err0 e h m hm
    cases hp : p.tryForward a with
    | ok v => simp [oneOfForwardGo, hp] at h
    | err e2 =>
      simp only [oneOfForwardGo, hp] at h
      rcases List.mem_cons.mp hm with rfl | hm2
      · exact ⟨e2, hp⟩
      · exact ih (some e2) e h m hm2

/-- If the backward loop raises, every mirror in the list failed. -/
theorem oneOfBackwardGo_error_all_fail {A B : Type} (b : B) :
    ∀ (ms : List (Mirror A B)) (err0 : Option Err) (e : Err),
      oneOfBackwardGo b ms err0 = Except.error e →
      ∀ m ∈ ms, ∃ e2, m.tryBackward b = Result.err e2 := by
  intro ms
  induction ms with
  | nil =>
    intro err0 e h m hm
    cases hm
  | cons p ps ih =>
    intro err0 e h m hm
    cases hp : p.tryBackward b with
    | ok v => simp [oneOfBackwardGo, hp] at h
    | err e2 =>
      simp only [oneOfBackwardGo, hp] at h
      rcases List.mem_cons.mp hm with rfl | hm2
      · exact ⟨e2, hp⟩
      · exact ih (some e2) e h m hm2

/-- C1 counterexample: `oneOf` and `branch` metadata carries no lossy flag,
so a composite of two lossy mirrors reports `isLossy = false` although
the OR of its constituents' flags is `true`. -/
theorem lossy_flag_counterexample :
    oneOf [lossyId, lossyId] = Except.ok (oneOfMirror [lossyId, lossyId]) ∧
    (oneOfMirror [lossyId, lossyId]).isLossy = false ∧
    (branch (fun _ => true) lossyId lossyId).isLossy = false ∧
    (lossyId.isLossy || lossyId.isLossy) = true :=
  ⟨rfl, rfl, rfl, rfl⟩

/-- C1 (amended): `pipe` over two or more stages and `all` set the
composite's lossy flag to the OR of the constituents' truthy flags,
while `oneOf` and `branch` attach no lossy flag at all, so those
composites report non-lossy regardless of their constituents. -/
theorem lossy_flag_propagation {V A B : Type}
    (m1 m2 : Mirror V V) (rest : List (Mirror V V))
    (fields : List (String × Mirror Val Val))
    (ms : List (Mirror A B)) (t : Mirror A B)
    (predicate : A → Bool) (thenM elseM : Mirror A B)
    (h : oneOf ms = Except.ok t) :
    (pipe (m1 :: m2 :: rest)).meta.lossy
        = some ((m1 :: m2 :: rest).any fun m => m.isLossy) ∧
    (all fields).meta.lossy = some (fields.any fun kv => kv.2.isLossy) ∧
    t.meta.lossy = none ∧
    (branch predicate thenM elseM).meta.lossy = none := by
  refine ⟨rfl, rfl, ?_, rfl⟩
  rw [oneOf_ok_eq h]
  rfl

/-- C1 witness: the amended statement evaluated on concrete mirrors. -/
theorem lossy_flag_propagation_witness :
    (pipe [lossyId, lossyId]).meta.lossy
        = some (([lossyId, lossyId]).any fun m => m.isLossy) ∧
    (all ([] : List (String × Mirror Val Val))).meta.lossy
        = some (([] : List (String × Mirror Val Val)).any fun kv => kv.2.isLossy) ∧
    (oneOfMirror [lossyId]).meta.lossy = none ∧
    (branch (fun _ => true) lossyId lossyId).meta.lossy = none :=
  lossy_flag_propagation lossyId lossyId [] [] [lossyId] (oneOfMirror [lossyId])
    (fun _ => true) lossyId lossyId rfl

/-- C2: `oneOf` forward returns the result of the first constituent in
order whose `tryForward` succeeds, and backward independently applies
the same first-success policy with `tryBackward`. -/
theorem oneOf_first_match {A B : Type}
    (ms : List (Mirror A B)) (t : Mirror A B) (h : oneOf ms = Except.ok t)
    (a : A) (b : B) :
    (∀ (pre post : List (Mirror A B)) (m : Mirror A B) (v : B),
        ms = pre ++ m :: post →
        (∀ m2 ∈ pre, ∃ e, m2.tryForward a = Result.err e) →
        m.tryForward a = Result.ok v →
        t.forward a = Except.ok v) ∧
    (∀ (pre post : List (Mirror A B)) (m : Mirror A B) (w : A),
        ms = pre ++ m :: post →
        (∀ m2 ∈ pre, ∃ e, m2.tryBackward b = Result.err e) →
        m.tryBackward b = Result.ok w →
        t.backward b = Except.ok w) := by
  rw [oneOf_ok_eq h]
  constructor
  · intro pre post m v hsplit hfail hm
    rw [hsplit]
    exact oneOfForwardGo_first a post m v hm pre hfail none
  · intro pre post m w hsplit hfail hm
    rw [hsplit]
    exact oneOfBackwardGo_first b post m w hm pre hfail none

/-- C2 witness: with two mirrors that both accept the input, the first
one's result wins in each direction. -/
theorem oneOf_first_match_witness :
    (oneOfMirror [incA, incB]).forward 0 = Except.ok 1 ∧
    (oneOfMirror [incA, incB]).backward 0 = Except.ok (-1) := by
  have h := oneOf_first_match [incA, incB] (oneOfMirror [incA, incB]) rfl 0 0
  refine ⟨h.1 [] [incB] incA 1 rfl ?_ rfl, h.2 [] [incB] incA (-1) rfl ?_ rfl⟩
  · intro m2 hm2
    cases hm2
  · intro m2 hm2
    cases hm2

/-- The forward direction of a pipeline is the monadic left fold of the
stages, for any number of stages. -/
theorem pipe_forward_eq_foldlM {V : Type} (ms : List (Mirror V V)) (x : V) :
    (pipe ms).forward x = ms.foldlM (fun r m => m.forward r) x := by
  match ms with
  | [] => rfl
  | [m] => exact (except_bind_pure (m.forward x)).symm
  | m1 :: m2 :: rest => rfl

/-- The backward direction of a pipeline is the monadic left fold of the
reversed stages, for any number of stages. -/
theorem pipe_backward_eq_foldlM {V : Type} (ms : List (Mirror V V)) (y : V) :
    (pipe ms).backward y = ms.reverse.foldlM (fun r m => m.backward r) y := by
  match ms with
  | [] => rfl
  | [m] => exact (except_bind_pure (m.backward y)).symm
  | m1 :: m2 :: rest => rfl

/-- Splitting a monadic fold over `Except` at a list append. -/
theorem foldlM_append_except {V : Type} (g : V → Mirror V V → Except Err V)
    (ms ns : List (Mirror V V)) (x : V) :
    (ms ++ ns).foldlM g x = ms.foldlM g x >>= fun y => ns.foldlM g y := by
  induction ms generalizing x with
  | nil => simp
  | cons m ms ih => simp [ih]

/-- C3: `pipe` of zero mirrors is the identity mirror, whose two
directions return their argument unchanged, and `pipe` of one mirror is
that mirror itself. -/
theorem pipe_identity_laws {V : Type} (t : Mirror V V) (x : V) :
    pipe ([] : List (Mirror V V)) = identity ∧
    (pipe ([] : List (Mirror V V))).forward x = Except.ok x ∧
    (pipe ([] : List (Mirror V V))).backward x = Except.ok x ∧
    identity.forward x = Except.ok x ∧
    identity.backward x = Except.ok x ∧
    pipe [t] = t :=
  ⟨rfl, rfl, rfl, rfl, rfl, rfl⟩

/-- C4: the three ways of associating a three-stage pipeline produce
identical forward results and identical backward results on every
input. -/
theorem pipe_associative {V : Type} (t1 t2 t3 : Mirror V V) (x y : V) :
    (pipe [pipe [t1, t2], t3]).forward x = (pipe [t1, t2, t3]).forward x ∧
    (pipe [t1, pipe [t2, t3]]).forward x = (pipe [t1, t2, t3]).forward x ∧
    (pipe [pipe [t1, t2], t3]).backward y = (pipe [t1, t2, t3]).backward y ∧
    (pipe [t1, pipe [t2, t3]]).backward y = (pipe [t1, t2, t3]).backward y := by
  refine ⟨?_, ?_, ?_, ?_⟩
  · rw [pipe_forward_eq_foldlM, pipe_forward_eq_foldlM,
      show [pipe [t1, t2], t3] = [pipe [t1, t2]] ++ [t3] from rfl,
      show [t1, t2, t3] = [t1, t2] ++ [t3] from rfl,
      foldlM_append_except, foldlM_append_except]
    simp [pipe_forward_eq_foldlM]
  · rw [pipe_forward_eq_foldlM, pipe_forward_eq_foldlM,
      show [t1, pipe [t2, t3]] = [t1] ++ [pipe [t2, t3]] from rfl,
      show [t1, t2, t3] = [t1] ++ [t2, t3] from rfl,
      foldlM_append_except, foldlM_append_except]
    simp [pipe_forward_eq_foldlM]
  · rw [pipe_backward_eq_foldlM, pipe_backward_eq_foldlM]
    simp only [List.reverse_cons, List.reverse_nil, List.nil_append, List.cons_append]
    rw [show [t3, pipe [t1, t2]] = [t3] ++ [pipe [t1, t2]] from rfl,
      show [t3, t2, t1] = [t3] ++ [t2, t1] from rfl,
      foldlM_append_except, foldlM_append_except]
    simp [pipe_backward_eq_foldlM]
  · rw [pipe_backward_eq_foldlM, pipe_backward_eq_foldlM]
    simp only [List.reverse_cons, List.reverse_nil, List.nil_append, List.cons_append]
    rw [show [pipe [t2, t3], t1] = [pipe [t2, t3]] ++ [t1] from rfl,
      show [t3, t2, t1] = [t3, t2] ++ [t1] from rfl,
      foldlM_append_except, foldlM_append_except]
    simp [pipe_backward_eq_foldlM]

/-- C5: `tryForward` returns the ok `Result` holding `forward`'s value
when it succeeds, wraps the raised error as an error `Result` when it
raises, and itself always returns one of the two (it never raises);
symmetrically for `tryBackward` and `backward`. -/
theorem try_wrappers {A B : Type} (m : Mirror A B) (a : A) (b : B) :
    (∀ v, m.forward a = Except.ok v → m.tryForward a = Result.ok v) ∧
    (∀ e, m.forward a = Except.error e → m.tryForward a = Result.err e) ∧
    ((∃ v, m.tryForward a = Result.ok v) ∨ (∃ e, m.tryForward a = Result.err e)) ∧
    (∀ w, m.backward b = Except.ok w → m.tryBackward b = Result.ok w) ∧
    (∀ e, m.backward b = Except.error e → m.tryBackward b = Result.err e) ∧
    ((∃ w, m.tryBackward b = Result.ok w) ∨ (∃ e, m.tryBackward b = Result.err e)) := by
  refine ⟨?_, ?_, ?_, ?_, ?_, ?_⟩
  · intro v h
    simp [Mirror.tryForward, h]
  · intro e h
    simp [Mirror.tryForward, h]
  · cases h : m.forward a with
    | ok v => exact Or.inl ⟨v, by simp [Mirror.tryForward, h]⟩
    | error e => exact Or.inr ⟨e, by simp [Mirror.tryForward, h]⟩
  · intro w h
    simp [Mirror.tryBackward, h]
  · intro e h
    simp [Mirror.tryBackward, h]
  · cases h : m.backward b with
    | ok w => exact Or.inl ⟨w, by simp [Mirror.tryBackward, h]⟩
    | error e => exact Or.inr ⟨e, by simp [Mirror.tryBackward, h]⟩

/-- C5 witness: the wrappers evaluated on a succeeding and on a raising
mirror. -/
theorem try_wrappers_witness :
    incA.tryForward 0 = Result.ok 1 ∧
    failA.tryForward 0 = Result.err "failA forward" ∧
    incA.tryBackward 0 = Result.ok (-1) ∧
    failA.tryBackward 0 = Result.err "failA backward" := by
  have hA := try_wrappers incA 0 0
  have hF := try_wrappers failA 0 0
  exact ⟨hA.1 1 rfl, hF.2.1 "failA forward" rfl,
    hA.2.2.2.1 (-1) rfl, hF.2.2.2.2.1 "failA backward" rfl⟩

/-- C6: `branch` forward follows the predicate; backward returns the
then-mirror's successful `tryBackward` value, and otherwise delegates
to the else-mirror's backward, whose own failure propagates. -/
theorem branch_semantics {A B : Type} (predicate : A → Bool)
    (thenM elseM : Mirror A B) (a : A) (b : B) :
    (predicate a = true →
      (branch predicate thenM elseM).forward a = thenM.forward a) ∧
    (predicate a = false →
      (branch predicate thenM elseM).forward a = elseM.forward a) ∧
    (∀ v, thenM.tryBackward b = Result.ok v →
      (branch predicate thenM elseM).backward b = Except.ok v) ∧
    (∀ e, thenM.tryBackward b = Result.err e →
      (branch predicate thenM elseM).backward b = elseM.backward b) := by
  refine ⟨?_, ?_, ?_, ?_⟩
  · intro h
    simp [branch, h]
  · intro h
    simp [branch, h]
  · intro v h
    simp [branch, h]
  · intro e h
    simp [branch, h]

/-- C6 witness: the positive branch wins forward on a positive input, the
negative branch on a negative one, and backward recovers through the
then-mirror when it accepts. -/
theorem branch_semantics_witness :
    (branch pPos incA incB).forward 5 = incA.forward 5 ∧
    (branch pPos incA incB).forward (-5) = incB.forward (-5) ∧
    (branch pPos incA incB).backward 7 = Except.ok 6 := by
  have h5 := branch_semantics pPos incA incB 5 7
  have hm := branch_semantics pPos incA incB (-5) 7
  exact ⟨h5.1 rfl, hm.2.1 rfl, h5.2.2.1 6 rfl⟩

/-- C7: `oneOf` of an empty list raises its misuse error at construction
time; with constituents present, each direction raises exactly when
every constituent's corresponding try-wrapper fails, and the raised
error is the last constituent's error. -/
theorem oneOf_errors {A B : Type}
    (msF : List (Mirror A B)) (mLast t : Mirror A B)
    (h : oneOf (msF ++ [mLast]) = Except.ok t) (a : A) (b : B) :
    oneOf ([] : List (Mirror A B)) = Except.error "oneOf requires at least one mirror" ∧
    (∀ eL, (∀ m ∈ msF, ∃ e, m.tryForward a = Result.err e) →
      mLast.tryForward a = Result.err eL → t.forward a = Except.error eL) ∧
    (∀ e, t.forward a = Except.error e →
      ∀ m ∈ msF ++ [mLast], ∃ e2, m.tryForward a = Result.err e2) ∧
    (∀ eL, (∀ m ∈ msF, ∃ e, m.tryBackward b = Result.err e) →
      mLast.tryBackward b = Result.err eL → t.backward b = Except.error eL) ∧
    (∀ e, t.backward b = Except.error e →
      ∀ m ∈ msF ++ [mLast], ∃ e2, m.tryBackward b = Result.err e2) := by
  rw [oneOf_ok_eq h]
  refine ⟨rfl, ?_, ?_, ?_, ?_⟩
  · intro eL hfail hL
    exact oneOfForwardGo_exhaust a mLast eL hL msF hfail none
  · intro e he
    exact oneOfForwardGo_error_all_fail a (msF ++ [mLast]) none e he
  · intro eL hfail hL
    exact oneOfBackwardGo_exhaust b mLast eL hL msF hfail none
  · intro e he
    exact oneOfBackwardGo_error_all_fail b (msF ++ [mLast]) none e he

/-- C7 witness: with two always-failing mirrors, each direction raises
the second (last) mirror's error, and the empty construction raises
the misuse error. -/
theorem oneOf_errors_witness :
    oneOf ([] : List (Mirror Int Int)) = Except.error "oneOf requires at least one mirror" ∧
    (oneOfMirror [failA, failB]).forward 0 = Except.error "failB forward" ∧
    (oneOfMirror [failA, failB]).backward 0 = Except.error "failB backward" := by
  have h := oneOf_errors [failA] failB (oneOfMirror [failA, failB]) rfl 0 0
  refine ⟨h.1, h.2.1 "failB forward" ?_ rfl, h.2.2.2.1 "failB backward" ?_ rfl⟩
  · intro m hm
    rcases List.mem_cons.mp hm with rfl | hm2
    · exact ⟨"failA forward", rfl⟩
    · cases hm2
  · intro m hm
    rcases List.mem_cons.mp hm with rfl | hm2
    · exact ⟨"failA backward", rfl⟩
    · cases hm2

/-- C8: for both object-like metadata kinds, exported `required` lists
exactly the field names whose descriptor kind is neither `optional` nor
`nullable` (omitted entirely when that list is empty); in particular a
shape with one plain and one nullable field requires only the plain
one. -/
theorem schema_required_excludes_optional_nullable (b : MetaBase)
    (shape : List (String × Meta)) :
    ((metaToJsonSchema (Meta.object b shape)).out.required
      = if ((shape.filter fun kv =>
            kv.2.tag != MetaType.optional && kv.2.tag != MetaType.nullable).map
              fun kv => kv.1).length > 0
        then some ((shape.filter fun kv =>
            kv.2.tag != MetaType.optional && kv.2.tag != MetaType.nullable).map
              fun kv => kv.1)
        else none) ∧
    ((metaToJsonSchema (Meta.all b shape)).out.required
      = if ((shape.filter fun kv =>
            kv.2.tag != MetaType.optional && kv.2.tag != MetaType.nullable).map
              fun kv => kv.1).length > 0
        then some ((shape.filter fun kv =>
            kv.2.tag != MetaType.optional && kv.2.tag != MetaType.nullable).map
              fun kv => kv.1)
        else none) ∧
    (metaToJsonSchema (Meta.object {}
        [("plain", .string {}), ("maybe", .nullable {} (.string {}))])).out.required
      = some ["plain"] := by
  refine ⟨?_, ?_, ?_⟩
  · simp only [metaToJsonSchema, JsonSchema.out]
    rfl
  · simp only [metaToJsonSchema, JsonSchema.out]
    rfl
  · simp only [metaToJsonSchema, JsonSchema.out]
    rfl

/-- C9 counterexample: `map` without a metadata argument on a mirror whose
metadata kind is `number` yields a transform whose metadata kind is
still `number`, not the generic `custom` kind the claim requires. -/
theorem map_meta_counterexample :
    ((numberish.map (fun v => Except.ok v) (fun v => Except.ok v) none).meta).tag
        = MetaType.number ∧
    MetaType.number ≠ MetaType.custom := by
  exact ⟨rfl, by decide⟩

/-- C9 (amended): `map(f, g)` without an explicit metadata argument
composes `f` after forward and backward after `g`, and keeps the
original mirror's metadata unchanged (no custom descriptor is
substituted). -/
theorem map_without_meta {A B C : Type} (self : Mirror A B)
    (f : B → Except Err C) (g : C → Except Err B) (a : A) (c : C) :
    (self.map f g none).forward a = (self.forward a).bind f ∧
    (self.map f g none).backward c = (g c).bind self.backward ∧
    (self.map f g none).meta = self.meta :=
  ⟨rfl, rfl, rfl⟩

/-- C10: a lazy-wrapped mirror carries the catch-all `custom` metadata
node whatever the factory produces, so its sample is the neutral null
placeholder and its exported schema is the empty schema. -/
theorem lazy_meta_custom {A B : Type} (getMirror : Unit → Mirror A B)
    (o : RandomOracle) :
    (lazy getMirror).meta = Meta.custom {} none ∧
    (lazy getMirror).sample o = Val.null ∧
    (lazy getMirror).toJsonSchema = JsonSchema.mk {} := by
  refine ⟨rfl, ?_, ?_⟩
  · simp [Mirror.sample, lazy, sampleFromMeta]
  · simp [Mirror.toJsonSchema, lazy, metaToJsonSchema, schemaBase, truthyDescription]

end MirrorFn
